import Mathlib

/-!
Shallow embedding of the ECDSA key/signature codec of `pkg/encoding/ecdsa.go`
(repository `iamnivekx/mpc-go`), together with proofs of the specification
claims about it.

Byte strings are modelled as `List Nat` with every element below 256.
Go's `big.Int` values are modelled as `Nat`:
  * `big.Int.SetBytes`   ↦ `natFromBytes` (big-endian value of a byte string);
  * `big.Int.Bytes`      ↦ `natToBytes` (minimal big-endian form, `[]` for 0);
  * `big.Int.FillBytes`  ↦ `fillBytes` (`none` models the Go panic when the
    value does not fit into the buffer);
  * indexing `recovery[0]` on a possibly-empty slice ↦ `List.head?`, with
    `none` modelling the Go panic on an empty slice.
-/

set_option autoImplicit false

namespace MpcGo

/-- Big-endian value of a byte string (Go `new(big.Int).SetBytes(b)`). -/
def natFromBytes (bs : List Nat) : Nat :=
  bs.foldl (fun acc b => acc * 256 + b) 0

/-- `beBytes len n` is the `len`-byte big-endian representation of `n % 256 ^ len`. -/
def beBytes : Nat → Nat → List Nat
  | 0, _ => []
  | l + 1, n => beBytes l (n / 256) ++ [n % 256]

/-- Number of bytes in the minimal big-endian representation of `n`
(the length of Go `big.Int.Bytes`). -/
def byteLen (n : Nat) : Nat :=
  if h : n = 0 then 0 else byteLen (n / 256) + 1
decreasing_by exact Nat.div_lt_self (Nat.pos_of_ne_zero h) (by norm_num)

/-- Minimal big-endian byte representation of `n` (Go `big.Int.Bytes`):
no leading zero bytes, and the empty string for 0. -/
def natToBytes (n : Nat) : List Nat :=
  beBytes (byteLen n) n

/-- A valid byte string: every element is an 8-bit value. -/
def isBytes (bs : List Nat) : Prop := ∀ b ∈ bs, b < 256

instance (bs : List Nat) : Decidable (isBytes bs) := by
  unfold isBytes; infer_instance

/-- Go `big.Int.FillBytes(make([]byte, len))`: writes the value zero-extended
big-endian into a fresh `len`-byte buffer; Go panics when the value does not
fit, modelled here by `none`. -/
def fillBytes (n len : Nat) : Option (List Nat) :=
  if n < 256 ^ len then some (beBytes len n) else none

/-- The secp256k1 field prime `p = 2^256 - 2^32 - 977`. -/
def secp256k1P : Nat := 2 ^ 256 - 2 ^ 32 - 977

/-- btcec `S256().IsOnCurve(x, y)`: the inputs are reduced into the field and
the curve equation `y² = x³ + 7` is checked modulo `p`. -/
def isOnCurve (x y : Nat) : Bool :=
  (y * y) % secp256k1P == (x * x * x + 7) % secp256k1P

/-- `crypto/ecdsa.PublicKey` restricted to the coordinate data the codec uses. -/
structure PublicKey where
  x : Nat
  y : Nat
deriving DecidableEq, Repr

/-- The two failure modes of `DecodeECDSAPubKey`
(`"invalid encoded key length, expected 64 bytes"` and
`"invalid public key: point not on secp256k1 curve"`). -/
inductive DecodeError where
  | invalidKeyEncoding
  | pointNotOnCurve
deriving DecidableEq, Repr

/-- `EncodeS256PubKey`: `append(pubKey.X.Bytes(), pubKey.Y.Bytes()...)`.
(The Go function also returns a `nil` error unconditionally, elided here.) -/
def EncodeS256PubKey (pubKey : PublicKey) : List Nat :=
  natToBytes pubKey.x ++ natToBytes pubKey.y

/-- `DecodeECDSAPubKey`: strips the `0x04` marker from a 65-byte input, then
requires a 64-byte body, splits it into two 32-byte big-endian integers and
checks curve membership. -/
def DecodeECDSAPubKey (encodedKey : List Nat) : Except DecodeError PublicKey :=
  let body :=
    if encodedKey.length = 65 ∧ encodedKey.head? = some 0x04 then
      encodedKey.tail
    else
      encodedKey
  if body.length ≠ 64 then
    .error .invalidKeyEncoding
  else
    let x := natFromBytes (body.take 32)
    let y := natFromBytes (body.drop 32)
    if isOnCurve x y then
      .ok ⟨x, y⟩
    else
      .error .pointNotOnCurve

/-- `ComposeECDSASignature`: both magnitudes are re-encoded through
`FillBytes` into 32-byte buffers and the first recovery byte is appended.
`none` models the Go panics (`FillBytes` on an oversized value,
`recovery[0]` on an empty slice). -/
def ComposeECDSASignature (r s recovery : List Nat) : Option (List Nat) := do
  let rPadded ← fillBytes (natFromBytes r) 32
  let sPadded ← fillBytes (natFromBytes s) 32
  let v ← recovery.head?
  pure (rPadded ++ sPadded ++ [v])

/-- x-coordinate of the secp256k1 generator point (a 32-byte magnitude). -/
def gx : Nat := 0x79BE667EF9DCBBAC55A06295CE870B07029BFCDB2DCE28D959F2815B16F81798

/-- y-coordinate of the secp256k1 generator point (a 32-byte magnitude). -/
def gy : Nat := 0x483ADA7726A3C4655DA4FBFC0E1108A8FD17B448A68554199C47D08FFB10D4B8

/-- x-coordinate of the secp256k1 point 153·G; it fits in 31 bytes, so its
minimal big-endian encoding has a dropped leading zero byte. -/
def cx : Nat := 0xe3ae1974566ca06cc516d47e0fb165a674a3dabcfca15e722f0e3450f45889

/-- y-coordinate of the secp256k1 point 153·G (a 32-byte magnitude). -/
def cy : Nat := 0x2aeabe7e4531510116217f07bf4d07300de97e4874f81f533420a72eeb0bd6a4

-- sanity checks
example : natToBytes 0x1234 = [0x12, 0x34] := by
  simp [natToBytes, byteLen, beBytes]
example : ComposeECDSASignature [0x42] [0x84] [0x01] =
    some (List.replicate 31 0 ++ [0x42] ++ (List.replicate 31 0 ++ [0x84]) ++ [0x01]) := by
  decide

/-! ### Arithmetic facts about the byte-string codec primitives -/

theorem natFromBytes_append_singleton (xs : List Nat) (b : Nat) :
    natFromBytes (xs ++ [b]) = natFromBytes xs * 256 + b := by
  simp [natFromBytes, List.foldl_append]

theorem natFromBytes_replicate_zero (m : Nat) (bs : List Nat) :
    natFromBytes (List.replicate m 0 ++ bs) = natFromBytes bs := by
  induction m with
  | zero => simp
  | succ m ih =>
      rw [List.replicate_succ, List.cons_append]
      simpa [natFromBytes] using ih

theorem beBytes_length (k : Nat) : ∀ n : Nat, (beBytes k n).length = k := by
  induction k with
  | zero => intro n; rfl
  | succ k ih => intro n; simp [beBytes, ih]

theorem isBytes_beBytes (k : Nat) : ∀ n : Nat, isBytes (beBytes k n) := by
  induction k with
  | zero => intro n b hb; simp [beBytes] at hb
  | succ k ih =>
      intro n b hb
      simp only [beBytes, List.mem_append, List.mem_singleton] at hb
      rcases hb with hb | hb
      · exact ih _ b hb
      · subst hb; exact Nat.mod_lt _ (by norm_num)

theorem natFromBytes_lt (bs : List Nat) (h : isBytes bs) :
    natFromBytes bs < 256 ^ bs.length := by
  induction bs using List.reverseRecOn with
  | nil => simp [natFromBytes]
  | append_singleton xs b ih =>
      have hb : b < 256 := h b (by simp)
      have hxs : natFromBytes xs < 256 ^ xs.length :=
        ih (fun c hc => h c (by simp [hc]))
      rw [natFromBytes_append_singleton]
      calc natFromBytes xs * 256 + b < (natFromBytes xs + 1) * 256 := by omega
        _ ≤ 256 ^ xs.length * 256 := Nat.mul_le_mul_right _ hxs
        _ = 256 ^ (xs ++ [b]).length := by simp [pow_succ]

theorem beBytes_natFromBytes (bs : List Nat) (h : isBytes bs) :
    beBytes bs.length (natFromBytes bs) = bs := by
  induction bs using List.reverseRecOn with
  | nil => rfl
  | append_singleton xs b ih =>
      have hb : b < 256 := h b (by simp)
      have hdiv : (natFromBytes xs * 256 + b) / 256 = natFromBytes xs := by omega
      have hmod : (natFromBytes xs * 256 + b) % 256 = b := by omega
      have hxs : isBytes xs := fun c hc => h c (by simp [hc])
      simp only [List.length_append, List.length_singleton, beBytes,
        natFromBytes_append_singleton, hdiv, hmod, ih hxs]

theorem beBytes_pad (k : Nat) (bs : List Nat) (h : isBytes bs) (hlen : bs.length ≤ k) :
    beBytes k (natFromBytes bs) = List.replicate (k - bs.length) 0 ++ bs := by
  have hlen' : (List.replicate (k - bs.length) 0 ++ bs).length = k := by
    simp; omega
  have h' : isBytes (List.replicate (k - bs.length) 0 ++ bs) := by
    intro b hb
    rcases List.mem_append.mp hb with hb | hb
    · have := List.eq_of_mem_replicate hb; omega
    · exact h b hb
  calc beBytes k (natFromBytes bs)
      = beBytes ((List.replicate (k - bs.length) 0 ++ bs).length)
          (natFromBytes (List.replicate (k - bs.length) 0 ++ bs)) := by
        rw [hlen', natFromBytes_replicate_zero]
    _ = List.replicate (k - bs.length) 0 ++ bs := beBytes_natFromBytes _ h'

theorem natFromBytes_beBytes (k : Nat) : ∀ n : Nat, natFromBytes (beBytes k n) = n % 256 ^ k := by
  induction k with
  | zero => intro n; simp [beBytes, natFromBytes, Nat.mod_one]
  | succ k ih =>
      intro n
      rw [beBytes, natFromBytes_append_singleton, ih, pow_succ']
      rw [Nat.mod_mul]
      ring

theorem byteLen_le_iff (k : Nat) : ∀ n : Nat, byteLen n ≤ k ↔ n < 256 ^ k := by
  induction k with
  | zero =>
      intro n
      by_cases h : n = 0
      · subst h; simp [byteLen]
      · rw [byteLen]
        simp [h]
  | succ k ih =>
      intro n
      by_cases h : n = 0
      · subst h; simp [byteLen]
      · rw [byteLen]
        simp only [h, dite_false]
        rw [Nat.succ_le_succ_iff, ih, pow_succ,
          Nat.div_lt_iff_lt_mul (by norm_num : (0:Nat) < 256)]

theorem natToBytes_length (n : Nat) : (natToBytes n).length = byteLen n :=
  beBytes_length _ n

theorem isBytes_natToBytes (n : Nat) : isBytes (natToBytes n) :=
  isBytes_beBytes _ n

theorem natFromBytes_natToBytes (n : Nat) : natFromBytes (natToBytes n) = n := by
  rw [natToBytes, natFromBytes_beBytes]
  exact Nat.mod_eq_of_lt ((byteLen_le_iff (byteLen n) n).mp le_rfl)

theorem natToBytes_length_le_iff (n k : Nat) : (natToBytes n).length ≤ k ↔ n < 256 ^ k := by
  rw [natToBytes_length]; exact byteLen_le_iff k n

theorem natToBytes_length_eq_32 (n : Nat) (h : n < 256 ^ 32) :
    (natToBytes n).length = 32 ↔ 256 ^ 31 ≤ n := by
  have h32 := natToBytes_length_le_iff n 32
  have h31 := natToBytes_length_le_iff n 31
  constructor
  · intro he
    by_contra hlt
    have : (natToBytes n).length ≤ 31 := h31.mpr (by omega)
    omega
  · intro hge
    have hle : (natToBytes n).length ≤ 32 := h32.mpr h
    have : ¬ (natToBytes n).length ≤ 31 := fun hc => by
      have := h31.mp hc; omega
    omega

/-! ### Behaviour of the codec operations -/

theorem composeECDSASignature_cons (r s : List Nat) (v : Nat) (rest : List Nat)
    (hr : natFromBytes r < 256 ^ 32) (hs : natFromBytes s < 256 ^ 32) :
    ComposeECDSASignature r s (v :: rest) =
      some (beBytes 32 (natFromBytes r) ++ beBytes 32 (natFromBytes s) ++ [v]) := by
  simp only [ComposeECDSASignature, fillBytes]
  rw [if_pos hr, if_pos hs]
  rfl

theorem composeECDSASignature_nil_recovery (r s : List Nat) :
    ComposeECDSASignature r s [] = none := by
  simp only [ComposeECDSASignature, fillBytes]
  by_cases hr : natFromBytes r < 256 ^ 32
  · rw [if_pos hr]
    by_cases hs : natFromBytes s < 256 ^ 32
    · rw [if_pos hs]; rfl
    · rw [if_neg hs]; rfl
  · rw [if_neg hr]; rfl

theorem decodeECDSAPubKey_of_length64 (bs : List Nat) (h : bs.length = 64) :
    DecodeECDSAPubKey bs =
      if isOnCurve (natFromBytes (bs.take 32)) (natFromBytes (bs.drop 32)) then
        Except.ok ⟨natFromBytes (bs.take 32), natFromBytes (bs.drop 32)⟩
      else
        Except.error DecodeError.pointNotOnCurve := by
  simp [DecodeECDSAPubKey, h]

theorem decodeECDSAPubKey_invalid_length (bs : List Nat) (h64 : bs.length ≠ 64)
    (h65 : ¬(bs.length = 65 ∧ bs.head? = some 4)) :
    DecodeECDSAPubKey bs = .error .invalidKeyEncoding := by
  simp only [DecodeECDSAPubKey]
  rw [if_neg h65, if_pos h64]

theorem decodeECDSAPubKey_strip (bs : List Nat) (h : bs.length = 65)
    (hm : bs.head? = some 4) :
    DecodeECDSAPubKey bs = DecodeECDSAPubKey bs.tail := by
  have hcond : bs.length = 65 ∧ bs.head? = some 4 := ⟨h, hm⟩
  have htail : bs.tail.length = 64 := by simp [h]
  have htail' : ¬(bs.tail.length = 65 ∧ bs.tail.head? = some 4) := by
    rw [htail]; simp
  simp only [DecodeECDSAPubKey]
  rw [if_pos hcond, if_neg htail']

/-! ### Claims about `ComposeECDSASignature` -/

/-- Claim C1: for every `r` and `s` of length 1..32 bytes and every 1-byte
recovery value, `ComposeECDSASignature` returns exactly 65 bytes, with bytes
[0,32) equal to `r` left-padded with zero bytes, bytes [32,64) equal to `s`
left-padded with zero bytes, and byte [64] equal to the recovery value. -/
theorem c1_composeECDSASignature_exact
    (r s : List Nat) (v : Nat) (hr : isBytes r) (hs : isBytes s)
    (hr1 : 1 ≤ r.length) (hr32 : r.length ≤ 32)
    (hs1 : 1 ≤ s.length) (hs32 : s.length ≤ 32) :
    ComposeECDSASignature r s [v] =
      some (List.replicate (32 - r.length) 0 ++ r ++
        (List.replicate (32 - s.length) 0 ++ s) ++ [v]) ∧
    (List.replicate (32 - r.length) 0 ++ r ++
      (List.replicate (32 - s.length) 0 ++ s) ++ [v]).length = 65 := by
  have hrlt : natFromBytes r < 256 ^ 32 :=
    lt_of_lt_of_le (natFromBytes_lt r hr) (Nat.pow_le_pow_right (by norm_num) hr32)
  have hslt : natFromBytes s < 256 ^ 32 :=
    lt_of_lt_of_le (natFromBytes_lt s hs) (Nat.pow_le_pow_right (by norm_num) hs32)
  constructor
  · rw [composeECDSASignature_cons r s v [] hrlt hslt,
      beBytes_pad 32 r hr hr32, beBytes_pad 32 s hs hs32]
  · simp
    omega

/-- Witness for C1 at `r = 0x1234`, `s = 0x5678`, `recovery = 0x01`. -/
theorem c1_composeECDSASignature_exact_witness :
    ComposeECDSASignature [0x12, 0x34] [0x56, 0x78] [0x01] =
      some (List.replicate 30 0 ++ [0x12, 0x34] ++
        (List.replicate 30 0 ++ [0x56, 0x78]) ++ [0x01]) :=
  (c1_composeECDSASignature_exact [0x12, 0x34] [0x56, 0x78] 0x01
    (by decide) (by decide) (by decide) (by decide) (by decide) (by decide)).1

/-- Claim C2 (the code violates it): on a 33-byte `r` magnitude with a non-zero
leading byte, the code does not return a `SignatureComponentOverflow` error —
`ComposeECDSASignature` has no error channel at all, and the oversized value
makes `big.Int.FillBytes` panic (modelled by `none`); no 65-byte output is
produced. -/
theorem c2_composeECDSASignature_overflow_panics :
    ComposeECDSASignature (1 :: List.replicate 32 0) [1] [0] = none := by
  decide

/-- Claim C7: `ComposeECDSASignature` is deterministic — two calls on equal
inputs return identical outputs (it is a pure function of its arguments). -/
theorem c7_composeECDSASignature_deterministic
    (r₁ s₁ rec₁ r₂ s₂ rec₂ : List Nat)
    (hr : r₁ = r₂) (hs : s₁ = s₂) (hrec : rec₁ = rec₂) :
    ComposeECDSASignature r₁ s₁ rec₁ = ComposeECDSASignature r₂ s₂ rec₂ := by
  rw [hr, hs, hrec]

/-- Witness for C7 at the inputs of the repository's consistency test. -/
theorem c7_composeECDSASignature_deterministic_witness :
    ComposeECDSASignature [0x12, 0x34, 0x56, 0x78] [0x9a, 0xbc, 0xde, 0xf0] [0x01] =
      ComposeECDSASignature [0x12, 0x34, 0x56, 0x78] [0x9a, 0xbc, 0xde, 0xf0] [0x01] :=
  c7_composeECDSASignature_deterministic _ _ _ _ _ _ rfl rfl rfl

/-- Claim C8: `ComposeECDSASignature` unconditionally indexes `recovery[0]`:
with an empty recovery slice the call panics (modelled by `none`), while with
any non-empty recovery slice (and in-range magnitudes) it produces a value. -/
theorem c8_composeECDSASignature_empty_recovery
    (r s : List Nat) (hr : isBytes r) (hs : isBytes s)
    (hr32 : r.length ≤ 32) (hs32 : s.length ≤ 32) :
    ComposeECDSASignature r s [] = none ∧
    ∀ (v : Nat) (rest : List Nat),
      (ComposeECDSASignature r s (v :: rest)).isSome = true := by
  have hrlt : natFromBytes r < 256 ^ 32 :=
    lt_of_lt_of_le (natFromBytes_lt r hr) (Nat.pow_le_pow_right (by norm_num) hr32)
  have hslt : natFromBytes s < 256 ^ 32 :=
    lt_of_lt_of_le (natFromBytes_lt s hs) (Nat.pow_le_pow_right (by norm_num) hs32)
  refine ⟨composeECDSASignature_nil_recovery r s, fun v rest => ?_⟩
  rw [composeECDSASignature_cons r s v rest hrlt hslt]
  rfl

/-- Witness for C8 at `r = [0x12]`, `s = [0x34]` with an empty recovery slice. -/
theorem c8_composeECDSASignature_empty_recovery_witness :
    ComposeECDSASignature [0x12] [0x34] [] = none :=
  (c8_composeECDSASignature_empty_recovery [0x12] [0x34]
    (by decide) (by decide) (by decide) (by decide)).1

/-- Claim C9: the output of `ComposeECDSASignature` depends on the recovery
slice only through its first byte — trailing recovery bytes are ignored. -/
theorem c9_composeECDSASignature_recovery_head
    (r s : List Nat) (v : Nat) (rest₁ rest₂ : List Nat) :
    ComposeECDSASignature r s (v :: rest₁) = ComposeECDSASignature r s (v :: rest₂) := by
  rfl

/-! ### Claims about `DecodeECDSAPubKey` -/

/-- Claim C5: a 64-byte input, or a 65-byte input with the 0x04 marker
stripped, whose parsed (X, Y) does not satisfy the secp256k1 curve equation is
rejected with `PointNotOnCurve`; no public key is ever returned for it. -/
theorem c5_decodeECDSAPubKey_offcurve (bs : List Nat) :
    (bs.length = 64 →
      isOnCurve (natFromBytes (bs.take 32)) (natFromBytes (bs.drop 32)) = false →
      DecodeECDSAPubKey bs = .error .pointNotOnCurve) ∧
    (bs.length = 65 → bs.head? = some 4 →
      isOnCurve (natFromBytes (bs.tail.take 32)) (natFromBytes (bs.tail.drop 32)) = false →
      DecodeECDSAPubKey bs = .error .pointNotOnCurve) := by
  constructor
  · intro h hoff
    rw [decodeECDSAPubKey_of_length64 bs h, hoff]
    simp
  · intro h65 hm hoff
    have htail : bs.tail.length = 64 := by simp [h65]
    rw [decodeECDSAPubKey_strip bs h65 hm, decodeECDSAPubKey_of_length64 _ htail, hoff]
    simp

/-- Witness for C5: the all-zero 64-byte string parses to (0, 0), which is off
the curve, and decoding fails with `PointNotOnCurve`. -/
theorem c5_decodeECDSAPubKey_offcurve_witness :
    DecodeECDSAPubKey (List.replicate 64 0) = .error .pointNotOnCurve :=
  (c5_decodeECDSAPubKey_offcurve (List.replicate 64 0)).1 (by decide) (by decide)

/-- Claim C6: an input whose length is neither 64 nor 65-with-marker fails with
`InvalidKeyEncoding`; a 65-byte input with the 0x04 marker has the marker byte
stripped and its 64-byte body parsed as two 32-byte big-endian integers X, Y,
which are accepted exactly when on the curve. -/
theorem c6_decodeECDSAPubKey_length_rules (bs : List Nat) :
    (bs.length ≠ 64 → ¬(bs.length = 65 ∧ bs.head? = some 4) →
      DecodeECDSAPubKey bs = .error .invalidKeyEncoding) ∧
    (bs.length = 65 → bs.head? = some 4 →
      DecodeECDSAPubKey bs = DecodeECDSAPubKey bs.tail ∧
      bs.tail.length = 64 ∧
      DecodeECDSAPubKey bs.tail =
        (if isOnCurve (natFromBytes (bs.tail.take 32)) (natFromBytes (bs.tail.drop 32)) then
          Except.ok ⟨natFromBytes (bs.tail.take 32), natFromBytes (bs.tail.drop 32)⟩
        else
          Except.error DecodeError.pointNotOnCurve)) := by
  constructor
  · exact decodeECDSAPubKey_invalid_length bs
  · intro h65 hm
    have htail : bs.tail.length = 64 := by simp [h65]
    exact ⟨decodeECDSAPubKey_strip bs h65 hm, htail,
      decodeECDSAPubKey_of_length64 _ htail⟩

/-- Witness for C6 at the 1-byte input `[0x00]`. -/
theorem c6_decodeECDSAPubKey_length_rules_witness :
    DecodeECDSAPubKey [0] = .error .invalidKeyEncoding :=
  (c6_decodeECDSAPubKey_length_rules [0]).1 (by decide) (by decide)

/-- Claim C10: a 65-byte input is stripped only when its first byte is exactly
0x04; with any other first byte no stripping happens and decoding fails with
the invalid-length error. -/
theorem c10_decodeECDSAPubKey_no_strip (bs : List Nat)
    (h65 : bs.length = 65) (hm : bs.head? ≠ some 4) :
    DecodeECDSAPubKey bs = .error .invalidKeyEncoding :=
  decodeECDSAPubKey_invalid_length bs (by omega) (fun hc => hm hc.2)

/-- Witness for C10 at the all-zero 65-byte string. -/
theorem c10_decodeECDSAPubKey_no_strip_witness :
    DecodeECDSAPubKey (List.replicate 65 0) = .error .invalidKeyEncoding :=
  c10_decodeECDSAPubKey_no_strip (List.replicate 65 0) (by decide) (by decide)

/-! ### Claims about `EncodeS256PubKey` -/

/-- Counterexample to claim C3: for the key with X = 1, Y = 1 the encoder
output is `[1, 1]` — two bytes, not a left-padded 64-byte string. -/
theorem c3_encodeS256PubKey_counterexample :
    ¬((EncodeS256PubKey ⟨1, 1⟩).length = 64) := by
  simp [EncodeS256PubKey, natToBytes, byteLen, beBytes]

/-- Claim C3 as amended: `EncodeS256PubKey` emits X‖Y using the minimal
big-endian encodings of the coordinates, with no left-padding and no prefix
byte; for coordinates below 2^256 the output is at most 64 bytes and is
exactly 64 bytes only when both coordinates are at least 2^248 (no high-order
zero byte is ever emitted). -/
theorem c3_encodeS256PubKey_minimal (k : PublicKey)
    (hx : k.x < 2 ^ 256) (hy : k.y < 2 ^ 256) :
    EncodeS256PubKey k = natToBytes k.x ++ natToBytes k.y ∧
    (EncodeS256PubKey k).length ≤ 64 ∧
    ((EncodeS256PubKey k).length = 64 ↔ 2 ^ 248 ≤ k.x ∧ 2 ^ 248 ≤ k.y) := by
  have e31 : (256:Nat) ^ 31 = 2 ^ 248 := by norm_num
  have e32 : (256:Nat) ^ 32 = 2 ^ 256 := by norm_num
  have hx' : k.x < 256 ^ 32 := by rw [e32]; exact hx
  have hy' : k.y < 256 ^ 32 := by rw [e32]; exact hy
  have lx : (natToBytes k.x).length ≤ 32 := (natToBytes_length_le_iff _ 32).mpr hx'
  have ly : (natToBytes k.y).length ≤ 32 := (natToBytes_length_le_iff _ 32).mpr hy'
  have hlen : (EncodeS256PubKey k).length =
      (natToBytes k.x).length + (natToBytes k.y).length := by
    simp [EncodeS256PubKey]
  refine ⟨rfl, by omega, ?_, ?_⟩
  · intro h
    have hx32 : (natToBytes k.x).length = 32 := by omega
    have hy32 : (natToBytes k.y).length = 32 := by omega
    constructor
    · rw [← e31]; exact (natToBytes_length_eq_32 _ hx').mp hx32
    · rw [← e31]; exact (natToBytes_length_eq_32 _ hy').mp hy32
  · rintro ⟨ha, hb⟩
    have hx32 : (natToBytes k.x).length = 32 :=
      (natToBytes_length_eq_32 _ hx').mpr (by rw [e31]; exact ha)
    have hy32 : (natToBytes k.y).length = 32 :=
      (natToBytes_length_eq_32 _ hy').mpr (by rw [e31]; exact hb)
    omega

/-- Witness for the amended C3 at the key X = 1, Y = 1 (output below 64
bytes). -/
theorem c3_encodeS256PubKey_minimal_witness :
    (EncodeS256PubKey ⟨1, 1⟩).length ≤ 64 :=
  (c3_encodeS256PubKey_minimal ⟨1, 1⟩ (by norm_num) (by norm_num)).2.1

/-- Counterexample to claim C4: the point 153·G is a valid on-curve secp256k1
public key, yet encoding then decoding it fails with the invalid-length error
(its x-coordinate has only a 31-byte minimal encoding, so the encoder emits 63
bytes) instead of returning the original key. -/
theorem c4_roundtrip_counterexample :
    isOnCurve cx cy = true ∧
    DecodeECDSAPubKey (EncodeS256PubKey ⟨cx, cy⟩) = .error .invalidKeyEncoding := by
  constructor
  · decide
  · have hx : (natToBytes cx).length = 31 := by
      have h1 : (natToBytes cx).length ≤ 31 :=
        (natToBytes_length_le_iff _ 31).mpr (by norm_num [cx])
      have h2 : ¬((natToBytes cx).length ≤ 30) := fun hc => by
        have := (natToBytes_length_le_iff cx 30).mp hc
        norm_num [cx] at this
      omega
    have hy : (natToBytes cy).length = 32 := by
      have h1 : (natToBytes cy).length ≤ 32 :=
        (natToBytes_length_le_iff _ 32).mpr (by norm_num [cy])
      have h2 : ¬((natToBytes cy).length ≤ 31) := fun hc => by
        have := (natToBytes_length_le_iff cy 31).mp hc
        norm_num [cy] at this
      omega
    have hlen : (EncodeS256PubKey ⟨cx, cy⟩).length = 63 := by
      simp [EncodeS256PubKey, hx, hy]
    exact decodeECDSAPubKey_invalid_length _ (by omega) (by omega)

/-- Claim C4 as amended: encode-then-decode returns a key equal to the
original for every valid on-curve secp256k1 key whose coordinates both require
a full 32-byte minimal encoding (are at least 2^248). -/
theorem c4_decode_encode_roundtrip (k : PublicKey)
    (hx1 : 2 ^ 248 ≤ k.x) (hx2 : k.x < 2 ^ 256)
    (hy1 : 2 ^ 248 ≤ k.y) (hy2 : k.y < 2 ^ 256)
    (hcurve : isOnCurve k.x k.y = true) :
    DecodeECDSAPubKey (EncodeS256PubKey k) = .ok k := by
  have e31 : (256:Nat) ^ 31 = 2 ^ 248 := by norm_num
  have e32 : (256:Nat) ^ 32 = 2 ^ 256 := by norm_num
  have lx : (natToBytes k.x).length = 32 :=
    (natToBytes_length_eq_32 _ (by rw [e32]; exact hx2)).mpr (by rw [e31]; exact hx1)
  have ly : (natToBytes k.y).length = 32 :=
    (natToBytes_length_eq_32 _ (by rw [e32]; exact hy2)).mpr (by rw [e31]; exact hy1)
  have hlen : (EncodeS256PubKey k).length = 64 := by
    simp [EncodeS256PubKey, lx, ly]
  have htake : (EncodeS256PubKey k).take 32 = natToBytes k.x := by
    rw [EncodeS256PubKey, ← lx]
    exact List.take_left _ _
  have hdrop : (EncodeS256PubKey k).drop 32 = natToBytes k.y := by
    rw [EncodeS256PubKey, ← lx]
    exact List.drop_left _ _
  rw [decodeECDSAPubKey_of_length64 _ hlen, htake, hdrop,
    natFromBytes_natToBytes, natFromBytes_natToBytes, hcurve]
  rfl

/-- Witness for the amended C4 at the secp256k1 generator point. -/
theorem c4_decode_encode_roundtrip_witness :
    DecodeECDSAPubKey (EncodeS256PubKey ⟨gx, gy⟩) = .ok ⟨gx, gy⟩ :=
  c4_decode_encode_roundtrip ⟨gx, gy⟩
    (by decide) (by decide) (by decide) (by decide) (by decide)

end MpcGo
